import Mathlib

/-!
Verification model of the Jira Issue Copy Helper browser extension.

The embedding translates, from the repository sources:
  * `hasIdentifiableIssue` (src/background_script.js) — the URL classifier
    deciding when the page action is shown;
  * `extractIssueData`, `generateFormats`, `escapeHtml` (content script) —
    issue-key/summary extraction and clipboard format generation;
  * `copyHtmlToClipboard` (src/popup/issue_copy.js) — the rich-clipboard
    write with plain-text fallback.

JavaScript regular expressions used by the sources are embedded as
executable functions on `List Char`.  Each such function carries a comment
naming the regex it implements; where a greedy quantifier is followed by a
character disjoint from the quantified class, the backtracking regex
semantics coincide with the deterministic longest-prefix scan implemented
here.  Host-platform primitives (the WHATWG `URL` constructor, DOM text
escaping, `String.prototype.toUpperCase`/`trim`, the async clipboard API)
are modelled explicitly and documented at their definitions.
-/

/-! ### Character classes

These mirror the character classes of the regexes in the sources:
`[A-Z]` under the `i` flag (any ASCII letter), `[A-Z0-9]` under `i`
(ASCII alphanumeric), `\d` (ASCII digit), `\s` (JS whitespace) and `.`
(any char except line terminators). -/

/-- ASCII digit, the `\d` class. -/
def isDigitC (c : Char) : Bool := 48 ≤ c.toNat && c.toNat ≤ 57

/-- ASCII uppercase letter `[A-Z]`. -/
def isUpperC (c : Char) : Bool := 65 ≤ c.toNat && c.toNat ≤ 90

/-- ASCII lowercase letter `[a-z]`. -/
def isLowerC (c : Char) : Bool := 97 ≤ c.toNat && c.toNat ≤ 122

/-- `[A-Z]` under the `i` flag: any ASCII letter. -/
def isLetterC (c : Char) : Bool := isUpperC c || isLowerC c

/-- `[A-Z0-9]` under the `i` flag: ASCII alphanumeric. -/
def isAlnumC (c : Char) : Bool := isLetterC c || isDigitC c

/-- `[A-Z0-9]` without the `i` flag: uppercase letter or digit. -/
def isUpperAlnumC (c : Char) : Bool := isUpperC c || isDigitC c

/-- The JavaScript `\s` class: ASCII whitespace plus the Unicode space
separators, NBSP, BOM and the two line separators. -/
def isSpaceC (c : Char) : Bool :=
  c.toNat == 32 || (9 ≤ c.toNat && c.toNat ≤ 13) || c.toNat == 160 ||
  c.toNat == 0x1680 || (0x2000 ≤ c.toNat && c.toNat ≤ 0x200a) ||
  c.toNat == 0x2028 || c.toNat == 0x2029 || c.toNat == 0x202f ||
  c.toNat == 0x205f || c.toNat == 0x3000 || c.toNat == 0xfeff

/-- The JavaScript `.` class (no `s` flag): any character except the four
line terminators. -/
def isDotC (c : Char) : Bool :=
  !(c.toNat == 10 || c.toNat == 13 || c.toNat == 0x2028 || c.toNat == 0x2029)

/-- Models `String.prototype.toUpperCase` on a single character,
restricted to the ASCII range (the only range the extracted keys and the
proofs below exercise); non-ASCII-lowercase characters are unchanged. -/
def toUpperChar (c : Char) : Char :=
  if isLowerC c then Char.ofNat (c.toNat - 32) else c

theorem toNat_charOfNat (n : Nat) (h : n.isValidChar) : (Char.ofNat n).toNat = n := by
  unfold Char.ofNat
  split
  · rfl
  · contradiction

theorem toUpperChar_toNat_of_lower (c : Char) (h : isLowerC c = true) :
    (toUpperChar c).toNat = c.toNat - 32 := by
  have hb : 97 ≤ c.toNat ∧ c.toNat ≤ 122 := by
    simpa [isLowerC] using h
  have hv : (c.toNat - 32).isValidChar := by
    left
    omega
  simp [toUpperChar, h, toNat_charOfNat _ hv]

theorem toUpperChar_of_not_lower (c : Char) (h : isLowerC c = false) :
    toUpperChar c = c := by
  simp [toUpperChar, h]

theorem isUpperC_toUpperChar (c : Char) : isUpperC (toUpperChar c) = isLetterC c := by
  cases h : isLowerC c with
  | true =>
    have ht := toUpperChar_toNat_of_lower c h
    have hb : 97 ≤ c.toNat ∧ c.toNat ≤ 122 := by simpa [isLowerC] using h
    rw [Bool.eq_iff_iff]
    simp only [isUpperC, isLetterC, isLowerC, ht, Bool.and_eq_true, Bool.or_eq_true,
      decide_eq_true_eq]
    omega
  | false =>
    rw [toUpperChar_of_not_lower c h]
    simp [isLetterC, h]

theorem isDigitC_toUpperChar (c : Char) : isDigitC (toUpperChar c) = isDigitC c := by
  cases h : isLowerC c with
  | true =>
    have ht := toUpperChar_toNat_of_lower c h
    have hb : 97 ≤ c.toNat ∧ c.toNat ≤ 122 := by simpa [isLowerC] using h
    rw [Bool.eq_iff_iff]
    simp only [isDigitC, ht, Bool.and_eq_true, decide_eq_true_eq]
    omega
  | false => rw [toUpperChar_of_not_lower c h]

theorem isUpperAlnumC_toUpperChar (c : Char) :
    isUpperAlnumC (toUpperChar c) = isAlnumC c := by
  have h1 := isUpperC_toUpperChar c
  have h2 := isDigitC_toUpperChar c
  simp only [isUpperAlnumC, isAlnumC, h1, h2]

theorem toUpperChar_of_digit (c : Char) (h : isDigitC c = true) :
    toUpperChar c = c := by
  apply toUpperChar_of_not_lower
  have hb : 48 ≤ c.toNat ∧ c.toNat ≤ 57 := by simpa [isDigitC] using h
  simp only [isLowerC, Bool.and_eq_false_iff, decide_eq_false_iff_not]
  left
  omega

theorem toUpperChar_of_upper (c : Char) (h : isUpperC c = true) :
    toUpperChar c = c := by
  apply toUpperChar_of_not_lower
  have hb : 65 ≤ c.toNat ∧ c.toNat ≤ 90 := by simpa [isUpperC] using h
  simp only [isLowerC, Bool.and_eq_false_iff, decide_eq_false_iff_not]
  left
  omega

theorem toUpperChar_idem (c : Char) : toUpperChar (toUpperChar c) = toUpperChar c := by
  cases h : isLowerC c with
  | true =>
    have ht := toUpperChar_toNat_of_lower c h
    have hb : 97 ≤ c.toNat ∧ c.toNat ≤ 122 := by simpa [isLowerC] using h
    apply toUpperChar_of_not_lower
    simp only [isLowerC, ht, Bool.and_eq_false_iff, decide_eq_false_iff_not]
    left
    omega
  | false => rw [toUpperChar_of_not_lower c h, toUpperChar_of_not_lower c h]

theorem toUpperChar_dash : toUpperChar '-' = '-' := by decide

/-! ### List-level string primitives

`startsWithL`/`endsWithL` embed JavaScript `String.prototype.startsWith`
and `endsWith`; `stripLit` consumes a literal regex fragment; `scanFirst`
and `tailsAnyB` implement the regex engine's scan over all start
positions (leftmost match first, as `RegExp.exec`/`test` do). -/

/-- `startsWithL pre l` is true iff `pre` is a prefix of `l`
(JS `String.prototype.startsWith`). -/
def startsWithL : List Char → List Char → Bool
  | [], _ => true
  | _ :: _, [] => false
  | p :: ps, c :: cs => p == c && startsWithL ps cs

/-- `endsWithL sfx l` is true iff `sfx` is a suffix of `l`
(JS `String.prototype.endsWith`). -/
def endsWithL (sfx l : List Char) : Bool := startsWithL sfx.reverse l.reverse

/-- Consume the literal `lit` at the front of `cs`, returning the rest. -/
def stripLit : List Char → List Char → Option (List Char)
  | [], cs => some cs
  | _ :: _, [] => none
  | p :: ps, c :: cs => if p == c then stripLit ps cs else none

/-- Run the position matcher `m` at every start position, left to right,
returning the first success — the regex engine's unanchored scan. -/
def scanFirst {α : Type} (m : List Char → Option α) : List Char → Option α
  | [] => m []
  | c :: cs =>
    match m (c :: cs) with
    | some r => some r
    | none => scanFirst m cs

/-- Boolean variant of `scanFirst`, for `RegExp.test` of patterns whose
match result is not inspected. -/
def tailsAnyB (m : List Char → Bool) : List Char → Bool
  | [] => m []
  | c :: cs => m (c :: cs) || tailsAnyB m cs

/-! ### The issue-key pattern

The sources use the fragment `[A-Z][A-Z0-9]+-\d+` with the `i` flag in
four regexes (background pattern 1, and the content script's URL match,
`selectedIssue` test, key-selector match and title match).  `matchKeyBody`
matches that fragment at the start of its argument, returning the matched
characters (the capture) and the remainder.  Greedy `[A-Z0-9]+` is
followed by `-` and greedy `\d+` is followed by a context the callers
check separately; both follower sets are disjoint from the quantified
classes, so the longest-prefix scan is exactly the backtracking
semantics. -/

/-- Match `[A-Z][A-Z0-9]+-\d+` (with `i`) at the start of `cs`:
returns (matched characters, remainder). -/
def matchKeyBody (cs : List Char) : Option (List Char × List Char) :=
  match cs with
  | [] => none
  | c :: rest =>
    if isLetterC c then
      let an := rest.takeWhile isAlnumC
      match rest.dropWhile isAlnumC with
      | '-' :: r2 =>
        let ds := r2.takeWhile isDigitC
        if an.isEmpty || ds.isEmpty then none
        else some (c :: an ++ '-' :: ds, r2.dropWhile isDigitC)
      | _ => none
    else none

/-- Match `\/browse\/[A-Z][A-Z0-9]+-\d+` (with `i`) at one position. -/
def matchBrowseAt (cs : List Char) : Option (List Char × List Char) :=
  match stripLit ("/browse/".data) cs with
  | some r => matchKeyBody r
  | none => none

/-- `/\/browse\/[A-Z][A-Z0-9]+-\d+/i.test(pathname)`: background pattern 1
(the content script's URL regex is the same with a capture group). -/
def browseTest (cs : List Char) : Bool := (scanFirst matchBrowseAt cs).isSome

/-- First capture of `/\/browse\/([A-Z][A-Z0-9]+-\d+)/i`, content-script
strategy 1. -/
def browseKeyScan (cs : List Char) : Option (List Char) :=
  match scanFirst matchBrowseAt cs with
  | some (cap, _) => some cap
  | none => none

/-- Match `\/jira\/software\/[^\/]+\/boards\/\d+` at one position,
returning the remainder after the digits. -/
def matchBoardCore (cs : List Char) : Option (List Char) :=
  match stripLit ("/jira/software/".data) cs with
  | none => none
  | some r1 =>
    let seg := r1.takeWhile (fun c => c != '/')
    if seg.isEmpty then none
    else
      match stripLit ("/boards/".data) (r1.dropWhile (fun c => c != '/')) with
      | none => none
      | some r2 =>
        let ds := r2.takeWhile isDigitC
        if ds.isEmpty then none else some (r2.dropWhile isDigitC)

/-- One position of `/\/jira\/software\/[^\/]+\/boards\/\d+\/?$/`:
the remainder after the digits must be empty or a single slash. -/
def matchBoardAt (cs : List Char) : Bool :=
  match matchBoardCore cs with
  | some [] => true
  | some ['/'] => true
  | _ => false

/-- One position of `/\/jira\/software\/[^\/]+\/boards\/\d+\/backlog\/?/`
(unanchored, so the optional trailing slash is irrelevant). -/
def matchBacklogAt (cs : List Char) : Bool :=
  match matchBoardCore cs with
  | some r => (stripLit ("/backlog".data) r).isSome
  | none => false

/-- One position of `/\/jira\/software\/[^\/]+\/boards\/\d+\/timeline\/?/`. -/
def matchTimelineAt (cs : List Char) : Bool :=
  match matchBoardCore cs with
  | some r => (stripLit ("/timeline".data) r).isSome
  | none => false

/-- Background pattern 2: the board-view regex tested on the pathname. -/
def boardTest (cs : List Char) : Bool := tailsAnyB matchBoardAt cs

/-- Background pattern 3: the backlog-view regex tested on the pathname. -/
def backlogTest (cs : List Char) : Bool := tailsAnyB matchBacklogAt cs

/-- Background pattern 4: the timeline-view regex tested on the pathname. -/
def timelineTest (cs : List Char) : Bool := tailsAnyB matchTimelineAt cs

/-! ### The URL classifier (src/background_script.js, `hasIdentifiableIssue`) -/

/-- The pieces of a parsed URL that `hasIdentifiableIssue` reads:
`urlObj.hostname`, `urlObj.pathname`, `urlObj.searchParams` (as ordered
key/value pairs) — plus the fragment, which the classifier never reads. -/
structure URLParts where
  hostname : String
  pathname : String
  searchParams : List (String × String)
  fragment : String
  deriving DecidableEq

/-- `searchParams.has(name)`: some parameter with that exact name exists;
its value is never looked at. -/
def hasParamB (ps : List (String × String)) (name : String) : Bool :=
  ps.any (fun kv => kv.1 == name)

/-- `urlParams.get(name)`: value of the first parameter with that name. -/
def getParam (ps : List (String × String)) (name : String) : Option String :=
  match ps.find? (fun kv => kv.1 == name) with
  | some kv => some kv.2
  | none => none

/-- Body of `hasIdentifiableIssue` after URL parsing succeeded: the
host check followed by patterns 1–5, in source order. -/
def hasIdentifiableIssueParsed (u : URLParts) : Bool :=
  if !endsWithL (".atlassian.net".data) u.hostname.data then false
  else if browseTest u.pathname.data then true
  else if boardTest u.pathname.data then hasParamB u.searchParams "selectedIssue"
  else if backlogTest u.pathname.data then hasParamB u.searchParams "selectedIssue"
  else if timelineTest u.pathname.data then hasParamB u.searchParams "selectedIssue"
  else if startsWithL ("/jira/".data) u.pathname.data &&
          hasParamB u.searchParams "selectedIssue" then true
  else false

/-- Split a query string on a separator character. -/
def splitOnC (sep : Char) : List Char → List (List Char)
  | [] => [[]]
  | c :: cs =>
    if c == sep then [] :: splitOnC sep cs
    else
      match splitOnC sep cs with
      | p :: ps => (c :: p) :: ps
      | [] => [[c]]

/-- One `key=value` piece of a query string (no `=` means empty value). -/
def parsePiece (p : List Char) : String × String :=
  (⟨p.takeWhile (fun c => c != '=')⟩, ⟨(p.dropWhile (fun c => c != '=')).drop 1⟩)

/-- `URLSearchParams` over a raw query string: split on `&`, drop empty
pieces, split each on the first `=` (percent-decoding is not modelled). -/
def parseQuery (q : List Char) : List (String × String) :=
  ((splitOnC '&' q).filter (fun p => !p.isEmpty)).map parsePiece

/-- Models the host `new URL(url)` constructor, simplified to the parts
the extension reads: requires `scheme://host`, then splits pathname
(defaulting to `/`), query and fragment at the first `?` and `#`.
Returns `none` where the real constructor throws. -/
def parseURL (s : String) : Option URLParts :=
  let cs := s.data
  let scheme := cs.takeWhile (fun c => c != ':')
  if scheme.isEmpty || !scheme.all (fun c => isAlnumC c || c == '+' || c == '-' || c == '.') then
    none
  else
    match cs.dropWhile (fun c => c != ':') with
    | ':' :: '/' :: '/' :: rest2 =>
      let hostEnd := fun (c : Char) => c == '/' || c == '?' || c == '#'
      let host := rest2.takeWhile (fun c => !hostEnd c)
      let rest3 := rest2.dropWhile (fun c => !hostEnd c)
      if host.isEmpty then none
      else
        let path := rest3.takeWhile (fun c => c != '?' && c != '#')
        let rest4 := rest3.dropWhile (fun c => c != '?' && c != '#')
        let path := if path.isEmpty then ['/'] else path
        match rest4 with
        | '?' :: r =>
          some ⟨⟨host⟩, ⟨path⟩, parseQuery (r.takeWhile (fun c => c != '#')),
            ⟨(r.dropWhile (fun c => c != '#')).drop 1⟩⟩
        | '#' :: r => some ⟨⟨host⟩, ⟨path⟩, [], ⟨r⟩⟩
        | _ => some ⟨⟨host⟩, ⟨path⟩, [], ""⟩
    | _ => none

/-- `hasIdentifiableIssue(url)` from src/background_script.js: the
`!url` falsy guard (null or empty string), then `new URL` inside
`try`/`catch` (parse failure returns false), then the parsed checks. -/
def hasIdentifiableIssue (url : Option String) : Bool :=
  match url with
  | none => false
  | some s =>
    if s == "" then false
    else
      match parseURL s with
      | none => false
      | some u => hasIdentifiableIssueParsed u

/-! ### Content-script model (extractIssueData / generateFormats)

The content script reads `window.location`, a handful of DOM query
results and `document.title`.  `PageState` captures exactly those reads:
each `Option String` is the `textContent` of the corresponding
`querySelector` result (`none` when the element is absent), in the order
the source lists the selectors. -/

/-- The page state `extractIssueData` reads. -/
structure PageState where
  /-- `window.location.href` -/
  href : String
  /-- `window.location.search`, already split by `URLSearchParams` -/
  searchParams : List (String × String)
  /-- `window.location.origin` -/
  origin : String
  /-- `textContent` of the Jira Cloud breadcrumb anchor, when present -/
  breadcrumb : Option String
  /-- `textContent` per entry of `keySelectors`, in order -/
  keyElems : List (Option String)
  /-- `textContent` per entry of `summarySelectors`, in order -/
  summaryElems : List (Option String)
  /-- `document.title` -/
  title : String
  deriving DecidableEq

/-- The `data` object built by `extractIssueData`: an IssueReference. -/
structure IssueData where
  key : Option String
  summary : Option String
  url : String
  deriving DecidableEq

/-- Models `String.prototype.toUpperCase` (ASCII range). -/
def jsUpper (s : String) : String := ⟨s.data.map toUpperChar⟩

/-- Models `String.prototype.trim`: strip JS whitespace from both ends. -/
def jsTrimL (l : List Char) : List Char :=
  ((l.dropWhile isSpaceC).reverse.dropWhile isSpaceC).reverse

/-- `jsTrimL` lifted to strings. -/
def jsTrim (s : String) : String := ⟨jsTrimL s.data⟩

/-- JS falsy test for a possibly-absent string: `!x` is true for both
`null` and the empty string. -/
def strAbsent : Option String → Bool
  | none => true
  | some s => s == ""

/-- `/^[A-Z][A-Z0-9]+-\d+$/i.test(s)`: the anchored `selectedIssue`
format check (content-script strategy 2). -/
def fullKeyTest (s : String) : Bool :=
  match matchKeyBody s.data with
  | some (_, rest) => rest.isEmpty
  | none => false

/-- Strategy-3b loop: first of the key-selector elements whose text
contains a `([A-Z][A-Z0-9]+-\d+)/i` match; returns that first capture. -/
def findKeyInElems : List (Option String) → Option (List Char)
  | [] => none
  | none :: rest => findKeyInElems rest
  | some t :: rest =>
    match scanFirst matchKeyBody t.data with
    | some (cap, _) => some cap
    | none => findKeyInElems rest

/-- Summary loop: first of the summary-selector elements that is present
with truthy trimmed text; returns the trimmed text. -/
def findSummaryInElems : List (Option String) → Option String
  | [] => none
  | none :: rest => findSummaryInElems rest
  | some t :: rest => if jsTrim t == "" then findSummaryInElems rest else some (jsTrim t)

/-! The title regex
`/\[([A-Z][A-Z0-9]+-\d+)\]\s*(.+?)(?:\s*-\s*Jira)?$/i` needs the
engine's exact backtracking order: greedy `\s*` (longest run first),
lazy `(.+?)` (shortest extension first), greedy `(?:...)?` (present
before absent), all anchored by the final `$`. -/

/-- The optional suffix plus anchor `(?:\s*-\s*Jira)?$` matched against
the whole remainder `t`: either `t` is exactly `\s*-\s*Jira` (with
`Jira` case-insensitive) or, taking the group as absent, `t` is empty. -/
def jiraTailEnd (t : List Char) : Bool :=
  (match t.dropWhile isSpaceC with
   | '-' :: r =>
     (match r.dropWhile isSpaceC with
      | [j, i, rr, a] =>
        (j == 'J' || j == 'j') && (i == 'I' || i == 'i') &&
        (rr == 'R' || rr == 'r') && (a == 'A' || a == 'a')
      | _ => false)
   | _ => false) ||
  t.isEmpty

/-- The lazy `(.+?)` already holding `acc` (at least one char): succeed
as soon as the suffix-plus-anchor matches the remainder, else extend by
one `.`-matchable character. -/
def lazyDotRun (acc : List Char) : List Char → Option (List Char)
  | [] => if jiraTailEnd [] then some acc else none
  | c :: cs =>
    if jiraTailEnd (c :: cs) then some acc
    else if isDotC c then lazyDotRun (acc ++ [c]) cs
    else none

/-- Start the lazy `(.+?)` (it must take at least one character). -/
def lazyDotStart : List Char → Option (List Char)
  | [] => none
  | c :: cs => if isDotC c then lazyDotRun [c] cs else none

/-- Greedy `\s*` with backtracking: `wsRev` is the reversed whitespace
run still held by `\s*`; on failure hand characters back, one at a
time, to the lazy group. -/
def wsBacktrack : List Char → List Char → Option (List Char)
  | wsRev, rest =>
    match lazyDotStart rest with
    | some g2 => some g2
    | none =>
      match wsRev with
      | w :: ws2 => wsBacktrack ws2 (w :: rest)
      | [] => none

/-- Match `\s*(.+?)(?:\s*-\s*Jira)?$` against the whole of `t`,
returning group 2. -/
def titleTailMatch (t : List Char) : Option (List Char) :=
  wsBacktrack (t.takeWhile isSpaceC).reverse (t.dropWhile isSpaceC)

/-- One position of the title regex: `\[`, the key capture, `\]`, then
the tail anchored at the end; returns (group 1, group 2). -/
def matchTitleAt (cs : List Char) : Option (List Char × List Char) :=
  match cs with
  | '[' :: r1 =>
    (match matchKeyBody r1 with
     | some (key, r2) =>
       (match r2 with
        | ']' :: r3 =>
          (match titleTailMatch r3 with
           | some g2 => some (key, g2)
           | none => none)
        | _ => none)
     | none => none)
  | _ => none

/-- `document.title.match(/\[([A-Z][A-Z0-9]+-\d+)\]\s*(.+?)(?:\s*-\s*Jira)?$/i)`:
first match, groups 1 and 2. -/
def titleMatch (cs : List Char) : Option (List Char × List Char) :=
  scanFirst matchTitleAt cs

/-- `extractIssueData` from the content script: strategies 1 (URL), 2
(`selectedIssue` parameter), 3 (breadcrumb, then the key-selector
loop), the summary-selector loop, the page-title fallback, and the
final canonical-URL rewrite.  Each `!data.key` guard is the JS falsy
test (`strAbsent`), and the final `if (data.key)` is its negation. -/
def extractIssueData (ps : PageState) : IssueData :=
  let key1 : Option String :=
    match browseKeyScan ps.href.data with
    | some cap => some (jsUpper ⟨cap⟩)
    | none => none
  let key2 : Option String :=
    if strAbsent key1 then
      match getParam ps.searchParams "selectedIssue" with
      | some v => if v != "" && fullKeyTest v then some (jsUpper v) else key1
      | none => key1
    else key1
  let key3 : Option String :=
    if strAbsent key2 then
      match ps.breadcrumb with
      | some t => some (jsTrim t)
      | none => key2
    else key2
  let key4 : Option String :=
    if strAbsent key3 then
      match findKeyInElems ps.keyElems with
      | some cap => some (jsUpper ⟨cap⟩)
      | none => key3
    else key3
  let summ1 : Option String := findSummaryInElems ps.summaryElems
  let tm : Option (List Char × List Char) :=
    if strAbsent summ1 && ps.title != "" then titleMatch ps.title.data else none
  let key5 : Option String :=
    match tm with
    | some (g1, _) => if strAbsent key4 then some (jsUpper ⟨g1⟩) else key4
    | none => key4
  let summ2 : Option String :=
    match tm with
    | some (_, g2) => some (jsTrim ⟨g2⟩)
    | none => summ1
  { key := key5
    summary := summ2
    url :=
      match key5 with
      | some k => if k != "" then ps.origin ++ "/browse/" ++ k else ps.href
      | none => ps.href }

/-- Models `escapeHtml` from the content script: the DOM
`div.textContent = text; div.innerHTML` round trip.  HTML fragment
serialization of a text node escapes `&`, `<`, `>` and NBSP, and
nothing else (in particular not quotes). -/
def escapeHtmlChar (c : Char) : String :=
  if c == '&' then "&amp;"
  else if c == '<' then "&lt;"
  else if c == '>' then "&gt;"
  else if c.toNat == 160 then "&nbsp;"
  else ⟨[c]⟩

/-- `escapeHtml(text)` from the content script. -/
def escapeHtml (text : String) : String :=
  String.join (text.data.map escapeHtmlChar)

/-- The object returned by `generateFormats`. -/
structure IssueFormats where
  plainText : String
  markdown : String
  markdownShort : String
  html : String
  deriving DecidableEq

/-- `generateFormats(issueData)` from the content script: `null` when
`key` is falsy (absent or empty); otherwise the four formats, with
`fullTitle` equal to `` `${key} - ${summary}` `` when `summary` is
truthy and the bare key otherwise. -/
def generateFormats (d : IssueData) : Option IssueFormats :=
  match d.key with
  | none => none
  | some key =>
    if key == "" then none
    else
      let fullTitle :=
        match d.summary with
        | some s => if s == "" then key else key ++ " - " ++ s
        | none => key
      some
        { plainText := fullTitle
          markdown := "[" ++ fullTitle ++ "](" ++ d.url ++ ")"
          markdownShort := "[" ++ key ++ "](" ++ d.url ++ ")"
          html := "<a href=\"" ++ d.url ++ "\">" ++ escapeHtml fullTitle ++ "</a>" }

/-! ### Clipboard model (src/popup/issue_copy.js, `copyHtmlToClipboard`)

The async clipboard API is modelled as the outcomes the host provides:
the result of the rich `navigator.clipboard.write([ClipboardItem])` call
and the result of `navigator.clipboard.writeText`.  The function's
behaviour is its returned result plus the trace of clipboard calls it
made. -/

/-- One clipboard API call made by the popup. -/
inductive ClipboardAction where
  /-- `navigator.clipboard.write` with a ClipboardItem holding an HTML
  blob and a plain-text blob. -/
  | richWrite (html plain : String)
  /-- `navigator.clipboard.writeText`. -/
  | textWrite (s : String)
  deriving DecidableEq

/-- Host clipboard behaviour: what each API call would return. -/
structure ClipboardEnv where
  /-- outcome of the rich `clipboard.write` (rejects where
  `ClipboardItem` is unsupported) -/
  richResult : Except String Unit
  /-- outcome of `clipboard.writeText` -/
  textResult : Except String Unit

/-- `copyHtmlToClipboard(html, plainText)`: attempt the rich write; on
rejection fall back to `writeText(html)` (note: the HTML markup string,
not `plainText`), whose outcome becomes the function's outcome. -/
def copyHtmlToClipboard (env : ClipboardEnv) (html plainText : String) :
    Except String Unit × List ClipboardAction :=
  match env.richResult with
  | Except.ok _ => (Except.ok (), [ClipboardAction.richWrite html plainText])
  | Except.error _ =>
    (env.textResult,
     [ClipboardAction.richWrite html plainText, ClipboardAction.textWrite html])

/-! ### Supporting lemmas -/

theorem startsWithL_refl_append (xs ys : List Char) :
    startsWithL xs (xs ++ ys) = true := by
  induction xs with
  | nil => rfl
  | cons c cs ih => simp [startsWithL, ih]

theorem startsWithL_iff (p l : List Char) :
    startsWithL p l = true ↔ ∃ t, l = p ++ t := by
  constructor
  · induction p generalizing l with
    | nil => exact fun _ => ⟨l, rfl⟩
    | cons x xs ih =>
      intro h
      cases l with
      | nil => simp [startsWithL] at h
      | cons c cs =>
        simp only [startsWithL, Bool.and_eq_true, beq_iff_eq] at h
        obtain ⟨t, ht⟩ := ih cs h.2
        exact ⟨t, by simp [h.1, ht]⟩
  · rintro ⟨t, rfl⟩
    exact startsWithL_refl_append p t

theorem endsWithL_iff (s l : List Char) :
    endsWithL s l = true ↔ ∃ p, l = p ++ s := by
  rw [endsWithL, startsWithL_iff]
  constructor
  · rintro ⟨t, ht⟩
    refine ⟨t.reverse, ?_⟩
    have := congrArg List.reverse ht
    simpa using this
  · rintro ⟨p, rfl⟩
    exact ⟨p.reverse, by simp⟩

theorem takeWhile_append_all {p : Char → Bool} {xs : List Char} (ys : List Char)
    (h : ∀ a ∈ xs, p a = true) :
    (xs ++ ys).takeWhile p = xs ++ ys.takeWhile p := by
  induction xs with
  | nil => rfl
  | cons c cs ih =>
    have hc : p c = true := h c (by simp)
    simp only [List.cons_append, List.takeWhile_cons, hc, if_true]
    rw [ih fun a ha => h a (by simp [ha])]

theorem dropWhile_append_all {p : Char → Bool} {xs : List Char} (ys : List Char)
    (h : ∀ a ∈ xs, p a = true) :
    (xs ++ ys).dropWhile p = ys.dropWhile p := by
  induction xs with
  | nil => rfl
  | cons c cs ih =>
    have hc : p c = true := h c (by simp)
    simp only [List.cons_append, List.dropWhile_cons, hc, if_true]
    exact ih fun a ha => h a (by simp [ha])

theorem stripLit_of_append (lit r : List Char) :
    stripLit lit (lit ++ r) = some r := by
  induction lit with
  | nil => rfl
  | cons c cs ih => simp [stripLit, ih]

theorem stripLit_eq_append {lit cs r : List Char} (h : stripLit lit cs = some r) :
    cs = lit ++ r := by
  induction lit generalizing cs with
  | nil => simpa [stripLit] using h
  | cons x xs ih =>
    cases cs with
    | nil => simp [stripLit] at h
    | cons c t =>
      by_cases hx : x == c
      · simp only [stripLit, hx, if_true] at h
        have := ih h
        simp [this, eq_of_beq hx]
      · simp [stripLit, hx] at h

theorem scanFirst_isSome_of_suffix {α : Type} (m : List Char → Option α)
    (pre rest : List Char) (h : (m rest).isSome = true) :
    (scanFirst m (pre ++ rest)).isSome = true := by
  induction pre with
  | nil =>
    cases rest with
    | nil => simpa [scanFirst] using h
    | cons c cs =>
      simp only [List.nil_append, scanFirst]
      cases hm : m (c :: cs) with
      | some r => simp
      | none => rw [hm] at h; simp at h
  | cons c cs ih =>
    simp only [List.cons_append, scanFirst]
    cases hm : m (c :: (cs ++ rest)) with
    | some r => simp
    | none => exact ih

theorem scanFirst_some_suffix {α : Type} (m : List Char → Option α)
    {l : List Char} {r : α} (h : scanFirst m l = some r) :
    ∃ rest, m rest = some r := by
  induction l with
  | nil => exact ⟨[], by simpa [scanFirst] using h⟩
  | cons c cs ih =>
    simp only [scanFirst] at h
    cases hm : m (c :: cs) with
    | some v =>
      rw [hm] at h
      simp only [Option.some.injEq] at h
      exact ⟨c :: cs, by rw [hm, h]⟩
    | none => rw [hm] at h; exact ih h

theorem tailsAnyB_of_suffix (m : List Char → Bool) (pre rest : List Char)
    (h : m rest = true) : tailsAnyB m (pre ++ rest) = true := by
  induction pre with
  | nil =>
    cases rest with
    | nil => simpa [tailsAnyB] using h
    | cons c cs => simp [tailsAnyB, h]
  | cons c cs ih => simp [tailsAnyB, ih]

/-- The specification's normalized key invariant: the whole string
matches `[A-Z][A-Z0-9]+-[0-9]+` (uppercase letters only). -/
def upperKeyB : List Char → Bool
  | [] => false
  | c :: rest =>
    isUpperC c &&
    !(rest.takeWhile isUpperAlnumC).isEmpty &&
    (match rest.dropWhile isUpperAlnumC with
     | '-' :: ds => !ds.isEmpty && ds.all isDigitC
     | _ => false)

theorem map_toUpperChar_idem (l : List Char) :
    (l.map toUpperChar).map toUpperChar = l.map toUpperChar := by
  induction l with
  | nil => rfl
  | cons c cs ih => simp [toUpperChar_idem, ih]

theorem matchKeyBody_spec {cs cap rest : List Char}
    (h : matchKeyBody cs = some (cap, rest)) :
    cs = cap ++ rest ∧ upperKeyB (cap.map toUpperChar) = true := by
  match cs with
  | [] => simp [matchKeyBody] at h
  | c :: r =>
    simp only [matchKeyBody] at h
    by_cases hc : isLetterC c
    case neg => simp [hc] at h
    rw [if_pos hc] at h
    cases hdw : r.dropWhile isAlnumC with
    | nil => rw [hdw] at h; simp at h
    | cons d r2 =>
      rw [hdw] at h
      by_cases hd : d = '-'
      case neg =>
        cases d
        simp_all
      subst hd
      simp only at h
      by_cases hne : (r.takeWhile isAlnumC).isEmpty || (r2.takeWhile isDigitC).isEmpty
      · rw [if_pos hne] at h; simp at h
      · rw [if_neg hne] at h
        simp only [Option.some.injEq, Prod.mk.injEq] at h
        obtain ⟨hcap, hrest⟩ := h
        simp only [Bool.or_eq_true, not_or, Bool.not_eq_true] at hne
        obtain ⟨hane, hdse⟩ := hne
        constructor
        · subst hcap hrest
          have h1 : r = r.takeWhile isAlnumC ++ ('-' :: r2) := by
            conv_lhs => rw [← List.takeWhile_append_dropWhile isAlnumC r]
            rw [hdw]
          have h2 : r2 = r2.takeWhile isDigitC ++ r2.dropWhile isDigitC :=
            (List.takeWhile_append_dropWhile isDigitC r2).symm
          calc c :: r = c :: (r.takeWhile isAlnumC ++ ('-' :: r2)) := by rw [← h1]
            _ = c :: r.takeWhile isAlnumC ++ '-' ::
                  (r2.takeWhile isDigitC ++ r2.dropWhile isDigitC) := by
                rw [← h2]; simp
            _ = (c :: r.takeWhile isAlnumC ++ '-' :: r2.takeWhile isDigitC) ++
                  r2.dropWhile isDigitC := by simp
        · subst hcap
          have hmap : (c :: r.takeWhile isAlnumC ++ '-' :: r2.takeWhile isDigitC).map
              toUpperChar = toUpperChar c :: ((r.takeWhile isAlnumC).map toUpperChar ++
              '-' :: (r2.takeWhile isDigitC).map toUpperChar) := by
            simp [toUpperChar_dash]
          rw [hmap]
          have hall : ∀ a ∈ (r.takeWhile isAlnumC).map toUpperChar,
              isUpperAlnumC a = true := by
            intro a ha
            obtain ⟨b, hb, rfl⟩ := List.mem_map.mp ha
            rw [isUpperAlnumC_toUpperChar]
            exact List.mem_takeWhile_imp hb
          have hds : ∀ a ∈ (r2.takeWhile isDigitC).map toUpperChar,
              isDigitC a = true := by
            intro a ha
            obtain ⟨b, hb, rfl⟩ := List.mem_map.mp ha
            have hbd : isDigitC b = true := List.mem_takeWhile_imp hb
            rw [toUpperChar_of_digit b hbd]
            exact hbd
          simp only [upperKeyB, isUpperC_toUpperChar, hc, Bool.true_and]
          rw [takeWhile_append_all _ hall, dropWhile_append_all _ hall]
          have hdash : isUpperAlnumC '-' = false := by decide
          simp only [List.takeWhile_cons, List.dropWhile_cons, hdash, if_false,
            Bool.false_eq_true, List.append_nil]
          simp only [Bool.and_eq_true, Bool.not_eq_true', List.all_eq_true]
          refine ⟨?_, ?_, ?_⟩
          · simpa using hane
          · simpa using hdse
          · exact hds

theorem hasIdentifiable_host_fail (u : URLParts)
    (hh : endsWithL (".atlassian.net".data) u.hostname.data = false) :
    hasIdentifiableIssueParsed u = false := by
  simp [hasIdentifiableIssueParsed, hh]

theorem hasIdentifiable_browse (u : URLParts)
    (hh : endsWithL (".atlassian.net".data) u.hostname.data = true)
    (hb : browseTest u.pathname.data = true) :
    hasIdentifiableIssueParsed u = true := by
  simp [hasIdentifiableIssueParsed, hh, hb]

theorem hasIdentifiable_jira_hasParam (u : URLParts)
    (hh : endsWithL (".atlassian.net".data) u.hostname.data = true)
    (hb : browseTest u.pathname.data = false)
    (hj : startsWithL ("/jira/".data) u.pathname.data = true) :
    hasIdentifiableIssueParsed u = hasParamB u.searchParams "selectedIssue" := by
  cases hB : boardTest u.pathname.data <;>
    cases hK : backlogTest u.pathname.data <;>
      cases hT : timelineTest u.pathname.data <;>
        cases hP : hasParamB u.searchParams "selectedIssue" <;>
          simp [hasIdentifiableIssueParsed, hh, hb, hj, hB, hK, hT, hP]

theorem matchKeyBody_isSome_of_parts {c : Char} {an ds suf : List Char}
    (hc : isLetterC c = true) (han : an ≠ []) (hana : ∀ a ∈ an, isAlnumC a = true)
    (hds : ds ≠ []) (hdsa : ∀ a ∈ ds, isDigitC a = true) :
    (matchKeyBody (c :: (an ++ ('-' :: (ds ++ suf))))).isSome = true := by
  have hdashA : isAlnumC '-' = false := by decide
  have hanE : an.isEmpty = false := by
    cases an
    · exact absurd rfl han
    · rfl
  cases ds with
  | nil => exact absurd rfl hds
  | cons d ds2 =>
    have hd : isDigitC d = true := hdsa d (by simp)
    have htw : (an ++ ('-' :: (d :: (ds2 ++ suf)))).takeWhile isAlnumC = an := by
      rw [takeWhile_append_all _ hana]
      simp [List.takeWhile_cons, hdashA]
    have hdw : (an ++ ('-' :: (d :: (ds2 ++ suf)))).dropWhile isAlnumC
        = '-' :: (d :: (ds2 ++ suf)) := by
      rw [dropWhile_append_all _ hana]
      simp [List.dropWhile_cons, hdashA]
    show (matchKeyBody (c :: (an ++ ('-' :: (d :: (ds2 ++ suf)))))).isSome = true
    rw [matchKeyBody, if_pos hc, htw, hdw]
    simp [List.takeWhile_cons, hd, hanE]

theorem browseTest_of_parts {pre : List Char} {c : Char} {an ds suf : List Char}
    (hc : isLetterC c = true) (han : an ≠ []) (hana : ∀ a ∈ an, isAlnumC a = true)
    (hds : ds ≠ []) (hdsa : ∀ a ∈ ds, isDigitC a = true) :
    browseTest (pre ++ ("/browse/".data ++ (c :: (an ++ ('-' :: (ds ++ suf)))))) = true := by
  unfold browseTest
  apply scanFirst_isSome_of_suffix
  simp only [matchBrowseAt, stripLit_of_append]
  exact matchKeyBody_isSome_of_parts hc han hana hds hdsa

theorem startsWith_jira_of_software (X : String) :
    startsWithL ("/jira/".data) (("/jira/software/" ++ X).data) = true := by
  have h : ("/jira/software/" : String) = "/jira/" ++ "software/" := by decide
  rw [startsWithL_iff]
  exact ⟨("software/" ++ X).data, by rw [h, String.append_assoc, String.data_append]⟩

theorem boardPath_assoc (proj idn mid t : String) :
    ("/jira/software/" ++ proj ++ "/boards/" ++ idn ++ mid ++ t : String)
      = "/jira/software/" ++ (proj ++ ("/boards/" ++ (idn ++ (mid ++ t)))) := by
  simp [String.append_assoc]

theorem startsWith_jira_board (proj idn mid t : String) :
    startsWithL ("/jira/".data)
      (("/jira/software/" ++ proj ++ "/boards/" ++ idn ++ mid ++ t).data) = true := by
  rw [boardPath_assoc]
  exact startsWith_jira_of_software _

/-! ### Claim theorems -/

/-- C1: for a URL whose path is a board view
(`/jira/software/<proj>/boards/<id>`), backlog view (`.../backlog`) or
timeline view (`.../timeline`), optionally trailing-slash-terminated, on
a host ending in `.atlassian.net` and not matched by the `/browse/<KEY>`
rule, `hasIdentifiableIssue` returns true if and only if a
`selectedIssue` query parameter is present, independently of that
parameter's value (the parameter values are never inspected). -/
theorem c1_board_views_iff_selectedIssue
    (host proj idn mid t : String) (params : List (String × String)) (frag : String)
    (hh : endsWithL (".atlassian.net".data) host.data = true)
    (_hmid : mid = "" ∨ mid = "/backlog" ∨ mid = "/timeline")
    (_ht : t = "" ∨ t = "/")
    (_hproj : proj ≠ "" ∧ ∀ c ∈ proj.data, c ≠ '/')
    (_hidn : idn ≠ "" ∧ ∀ c ∈ idn.data, isDigitC c = true)
    (hb : browseTest ("/jira/software/" ++ proj ++ "/boards/" ++ idn ++ mid ++ t).data
      = false) :
    hasIdentifiableIssueParsed
      ⟨host, "/jira/software/" ++ proj ++ "/boards/" ++ idn ++ mid ++ t, params, frag⟩
      = hasParamB params "selectedIssue" := by
  exact hasIdentifiable_jira_hasParam _ hh hb (startsWith_jira_board proj idn mid t)

/-- Witness for C1 at a concrete backlog URL with a `selectedIssue`
parameter whose value is not even key-shaped. -/
theorem c1_witness :
    endsWithL (".atlassian.net".data) ("myco.atlassian.net" : String).data = true ∧
    browseTest ("/jira/software/" ++ "PROJ" ++ "/boards/" ++ "12" ++ "/backlog" ++ "/"
      : String).data = false ∧
    hasIdentifiableIssueParsed
      ⟨"myco.atlassian.net", "/jira/software/" ++ "PROJ" ++ "/boards/" ++ "12" ++
        "/backlog" ++ "/", [("selectedIssue", "???")], "frag"⟩
      = hasParamB [("selectedIssue", "???")] "selectedIssue" :=
  ⟨by decide, by decide,
    c1_board_views_iff_selectedIssue "myco.atlassian.net" "PROJ" "12" "/backlog" "/"
      [("selectedIssue", "???")] "frag" (by decide) (Or.inr (Or.inl rfl)) (Or.inr rfl)
      ⟨by decide, by decide⟩ ⟨by decide, by decide⟩ (by decide)⟩

/-- C2: a URL string that parses but whose hostname does not end with
`.atlassian.net` is always rejected, regardless of path, query or
fragment. -/
theorem c2_non_atlassian_rejected (s : String) (u : URLParts)
    (hp : parseURL s = some u)
    (hh : ¬ ∃ pre : List Char, u.hostname.data = pre ++ (".atlassian.net".data)) :
    hasIdentifiableIssue (some s) = false := by
  have hend : endsWithL (".atlassian.net".data) u.hostname.data = false := by
    cases hx : endsWithL (".atlassian.net".data) u.hostname.data
    · rfl
    · exact absurd ((endsWithL_iff _ _).mp hx) hh
  simp only [hasIdentifiableIssue]
  by_cases hs : s == ""
  · rw [if_pos hs]
  · rw [if_neg hs, hp]
    exact hasIdentifiable_host_fail u hend

/-- Witness for C2: an `example.com` URL whose path and query would
otherwise be accepted by patterns 1 and 5. -/
theorem c2_witness :
    hasIdentifiableIssue (some "https://example.com/browse/ABC-1?selectedIssue=AB-2")
      = false :=
  c2_non_atlassian_rejected _ ⟨"example.com", "/browse/ABC-1",
      [("selectedIssue", "AB-2")], ""⟩ (by decide)
    (fun ⟨pre, hpre⟩ => by
      have hlen := congrArg List.length hpre
      simp [String.data] at hlen)

/-- C3: any URL whose path contains `/browse/<KEY>` — `<KEY>` being a
letter, one or more alphanumerics, a hyphen and one or more digits
(case-insensitive) — on an `.atlassian.net` host is accepted, for every
query-parameter list and fragment. -/
theorem c3_browse_always_accepted
    (host path : String) (params : List (String × String)) (frag : String)
    (pre : List Char) (c : Char) (an ds suf : List Char)
    (hh : endsWithL (".atlassian.net".data) host.data = true)
    (hc : isLetterC c = true) (han : an ≠ []) (hana : ∀ a ∈ an, isAlnumC a = true)
    (hds : ds ≠ []) (hdsa : ∀ a ∈ ds, isDigitC a = true)
    (hpath : path.data = pre ++ ("/browse/".data ++ (c :: (an ++ ('-' :: (ds ++ suf)))))) :
    hasIdentifiableIssueParsed ⟨host, path, params, frag⟩ = true := by
  apply hasIdentifiable_browse
  · exact hh
  · show browseTest path.data = true
    rw [hpath]
    exact browseTest_of_parts hc han hana hds hdsa

/-- Witness for C3: lowercase key, non-empty query and fragment. -/
theorem c3_witness :
    hasIdentifiableIssueParsed
      ⟨"x.atlassian.net", "/browse/proj-42", [("resolved", "")], "comment-9"⟩ = true :=
  c3_browse_always_accepted "x.atlassian.net" "/browse/proj-42" [("resolved", "")]
    "comment-9" [] 'p' ("roj".data) ("42".data) [] (by decide) (by decide) (by decide)
    (by decide) (by decide) (by decide) (by decide)

/-- C4: `hasIdentifiableIssue` returns false on `null`, on the empty
string and on every string the URL parser rejects, and on every input it
returns one of the two booleans (it never throws — the `try`/`catch`
fails closed). -/
theorem c4_malformed_fail_closed :
    hasIdentifiableIssue none = false ∧
    hasIdentifiableIssue (some "") = false ∧
    (∀ s : String, parseURL s = none → hasIdentifiableIssue (some s) = false) ∧
    (∀ o : Option String, hasIdentifiableIssue o = false ∨ hasIdentifiableIssue o = true) := by
  refine ⟨rfl, rfl, ?_, ?_⟩
  · intro s hp
    simp only [hasIdentifiableIssue]
    by_cases hs : s == ""
    · rw [if_pos hs]
    · rw [if_neg hs, hp]
  · intro o
    cases h : hasIdentifiableIssue o
    · exact Or.inl rfl
    · exact Or.inr rfl

/-- Witness for C4 at a string with no scheme, which the URL parser
rejects. -/
theorem c4_witness :
    hasIdentifiableIssue (some "not a url") = false ∧
    (hasIdentifiableIssue (some "not a url") = false ∨
      hasIdentifiableIssue (some "not a url") = true) :=
  ⟨c4_malformed_fail_closed.2.2.1 "not a url" (by decide),
   c4_malformed_fail_closed.2.2.2 (some "not a url")⟩

/-- C7: rule 5 subsumes rule 4's accept cases — every board, backlog or
timeline path (rule 4's accept shapes) begins with `/jira/` and, when a
`selectedIssue` parameter is present, rule 5's condition holds as well;
and on an `.atlassian.net` host every `/jira/`-prefixed path whatsoever
with `selectedIssue` present is accepted. -/
theorem c7_rule5_subsumes_rule4 :
    (∀ (proj idn mid t : String) (params : List (String × String)),
      (mid = "" ∨ mid = "/backlog" ∨ mid = "/timeline") → (t = "" ∨ t = "/") →
      hasParamB params "selectedIssue" = true →
      startsWithL ("/jira/".data)
        (("/jira/software/" ++ proj ++ "/boards/" ++ idn ++ mid ++ t).data) = true ∧
      hasParamB params "selectedIssue" = true) ∧
    (∀ (host path : String) (params : List (String × String)) (frag : String),
      endsWithL (".atlassian.net".data) host.data = true →
      startsWithL ("/jira/".data) path.data = true →
      hasParamB params "selectedIssue" = true →
      hasIdentifiableIssueParsed ⟨host, path, params, frag⟩ = true) := by
  constructor
  · intro proj idn mid t params _ _ hp
    exact ⟨startsWith_jira_board proj idn mid t, hp⟩
  · intro host path params frag hh hj hp
    cases hb : browseTest path.data with
    | true => exact hasIdentifiable_browse _ hh hb
    | false => rw [hasIdentifiable_jira_hasParam _ hh hb hj, hp]

/-- Witness for C7: an arbitrary `/jira/` settings page with a
`selectedIssue` parameter, plus the subsumption fact at a board path. -/
theorem c7_witness :
    (startsWithL ("/jira/".data)
      (("/jira/software/" ++ "AB" ++ "/boards/" ++ "7" ++ "" ++ "" : String).data) = true ∧
     hasParamB [("selectedIssue", "AB-1")] "selectedIssue" = true) ∧
    hasIdentifiableIssueParsed
      ⟨"x.atlassian.net", "/jira/settings/personal", [("selectedIssue", "AB-1")], ""⟩
      = true :=
  ⟨c7_rule5_subsumes_rule4.1 "AB" "7" "" "" [("selectedIssue", "AB-1")]
      (Or.inl rfl) (Or.inl rfl) (by decide),
   c7_rule5_subsumes_rule4.2 "x.atlassian.net" "/jira/settings/personal"
      [("selectedIssue", "AB-1")] "" (by decide) (by decide) (by decide)⟩

theorem browseKeyScan_upper {l cap : List Char} (h : browseKeyScan l = some cap) :
    upperKeyB (cap.map toUpperChar) = true := by
  unfold browseKeyScan at h
  cases hs : scanFirst matchBrowseAt l with
  | none => rw [hs] at h; simp at h
  | some pr =>
    rw [hs] at h
    obtain ⟨cap0, r0⟩ := pr
    simp only [Option.some.injEq] at h
    subst h
    obtain ⟨rest, hm⟩ := scanFirst_some_suffix _ hs
    unfold matchBrowseAt at hm
    cases hst : stripLit ("/browse/".data) rest with
    | none => rw [hst] at hm; simp at hm
    | some r1 =>
      rw [hst] at hm
      exact (matchKeyBody_spec hm).2

theorem findKeyInElems_upper {es : List (Option String)} {cap : List Char}
    (h : findKeyInElems es = some cap) :
    upperKeyB (cap.map toUpperChar) = true := by
  induction es with
  | nil => simp [findKeyInElems] at h
  | cons e rest ih =>
    cases e with
    | none => exact ih (by simpa [findKeyInElems] using h)
    | some t =>
      simp only [findKeyInElems] at h
      cases hs : scanFirst matchKeyBody t.data with
      | none => rw [hs] at h; exact ih h
      | some pr =>
        rw [hs] at h
        obtain ⟨cap0, r0⟩ := pr
        simp only [Option.some.injEq] at h
        subst h
        obtain ⟨rest2, hm⟩ := scanFirst_some_suffix _ hs
        exact (matchKeyBody_spec hm).2

theorem fullKeyTest_upper {v : String} (h : fullKeyTest v = true) :
    upperKeyB (v.data.map toUpperChar) = true := by
  unfold fullKeyTest at h
  cases hm : matchKeyBody v.data with
  | none => rw [hm] at h; simp at h
  | some pr =>
    rw [hm] at h
    obtain ⟨cap, rest⟩ := pr
    have hrest : rest = [] := by simpa [List.isEmpty_iff] using h
    subst hrest
    have := matchKeyBody_spec hm
    rw [List.append_nil] at this
    rw [this.1]
    exact this.2

theorem titleMatch_upper {l g1 g2 : List Char} (h : titleMatch l = some (g1, g2)) :
    upperKeyB (g1.map toUpperChar) = true := by
  obtain ⟨rest, hm⟩ := scanFirst_some_suffix _ h
  unfold matchTitleAt at hm
  cases rest with
  | nil => simp at hm
  | cons c r1 =>
    by_cases hc : c = '['
    case neg => cases c; simp_all
    subst hc
    simp only at hm
    cases hk : matchKeyBody r1 with
    | none => rw [hk] at hm; simp at hm
    | some pr =>
      rw [hk] at hm
      obtain ⟨key, r2⟩ := pr
      have hup := (matchKeyBody_spec hk).2
      cases r2 with
      | nil => simp at hm
      | cons d r3 =>
        by_cases hd : d = ']'
        case neg => cases d; simp_all
        subst hd
        simp only at hm
        cases ht : titleTailMatch r3 with
        | none => rw [ht] at hm; simp at hm
        | some g =>
          rw [ht] at hm
          simp only [Option.some.injEq, Prod.mk.injEq] at hm
          rw [← hm.1]
          exact hup

/-! The five `let` stages of `extractIssueData`, restated as named
functions so each strategy can be reasoned about separately; the
`*_eq` lemmas below identify them definitionally with the source
function's result. -/

def keyStep1 (ps : PageState) : Option String :=
  match browseKeyScan ps.href.data with
  | some cap => some (jsUpper ⟨cap⟩)
  | none => none

def keyStep2 (ps : PageState) : Option String :=
  if strAbsent (keyStep1 ps) then
    match getParam ps.searchParams "selectedIssue" with
    | some v => if v != "" && fullKeyTest v then some (jsUpper v) else keyStep1 ps
    | none => keyStep1 ps
  else keyStep1 ps

def keyStep3 (ps : PageState) : Option String :=
  if strAbsent (keyStep2 ps) then
    match ps.breadcrumb with
    | some t => some (jsTrim t)
    | none => keyStep2 ps
  else keyStep2 ps

def keyStep4 (ps : PageState) : Option String :=
  if strAbsent (keyStep3 ps) then
    match findKeyInElems ps.keyElems with
    | some cap => some (jsUpper ⟨cap⟩)
    | none => keyStep3 ps
  else keyStep3 ps

def titleMatchStep (ps : PageState) : Option (List Char × List Char) :=
  if strAbsent (findSummaryInElems ps.summaryElems) && ps.title != "" then
    titleMatch ps.title.data
  else none

def keyStep5 (ps : PageState) : Option String :=
  match titleMatchStep ps with
  | some (g1, _) => if strAbsent (keyStep4 ps) then some (jsUpper ⟨g1⟩) else keyStep4 ps
  | none => keyStep4 ps

theorem extract_key_eq (ps : PageState) : (extractIssueData ps).key = keyStep5 ps := rfl

theorem extract_url_eq (ps : PageState) :
    (extractIssueData ps).url =
      (match keyStep5 ps with
       | some k => if k != "" then ps.origin ++ "/browse/" ++ k else ps.href
       | none => ps.href) := rfl

/-- The C6 invariant for one candidate key value. -/
def goodKey (o : Option String) : Prop :=
  ∀ k : String, o = some k → upperKeyB k.data = true ∧ jsUpper k = k

theorem upperKey_str {cap : List Char} (h : upperKeyB (cap.map toUpperChar) = true) :
    upperKeyB ((⟨cap.map toUpperChar⟩ : String)).data = true ∧
    jsUpper ⟨cap.map toUpperChar⟩ = (⟨cap.map toUpperChar⟩ : String) := by
  refine ⟨h, ?_⟩
  show (⟨(cap.map toUpperChar).map toUpperChar⟩ : String) = ⟨cap.map toUpperChar⟩
  rw [map_toUpperChar_idem]

theorem goodKey_step1 (ps : PageState) : goodKey (keyStep1 ps) := by
  intro k hk
  unfold keyStep1 at hk
  cases h1 : browseKeyScan ps.href.data with
  | none => rw [h1] at hk; simp at hk
  | some cap =>
    rw [h1] at hk
    simp only [Option.some.injEq] at hk
    subst hk
    exact upperKey_str (browseKeyScan_upper h1)

theorem goodKey_step2 (ps : PageState) : goodKey (keyStep2 ps) := by
  intro k hk
  unfold keyStep2 at hk
  split at hk
  · cases h2 : getParam ps.searchParams "selectedIssue" with
    | none => rw [h2] at hk; exact goodKey_step1 ps k hk
    | some v =>
      rw [h2] at hk
      simp only at hk
      by_cases h3 : (v != "" && fullKeyTest v) = true
      · rw [if_pos h3] at hk
        simp only [Option.some.injEq] at hk
        subst hk
        have hfk : fullKeyTest v = true := by
          simp only [Bool.and_eq_true] at h3
          exact h3.2
        exact upperKey_str (fullKeyTest_upper hfk)
      · rw [if_neg h3] at hk
        exact goodKey_step1 ps k hk
  · exact goodKey_step1 ps k hk

theorem goodKey_step3 (ps : PageState) (hbc : ps.breadcrumb = none) :
    goodKey (keyStep3 ps) := by
  intro k hk
  unfold keyStep3 at hk
  rw [hbc] at hk
  split at hk
  · exact goodKey_step2 ps k hk
  · exact goodKey_step2 ps k hk

theorem goodKey_step4 (ps : PageState) (hbc : ps.breadcrumb = none) :
    goodKey (keyStep4 ps) := by
  intro k hk
  unfold keyStep4 at hk
  split at hk
  · cases h4 : findKeyInElems ps.keyElems with
    | none => rw [h4] at hk; exact goodKey_step3 ps hbc k hk
    | some cap =>
      rw [h4] at hk
      simp only [Option.some.injEq] at hk
      subst hk
      exact upperKey_str (findKeyInElems_upper h4)
  · exact goodKey_step3 ps hbc k hk

theorem goodKey_step5 (ps : PageState) (hbc : ps.breadcrumb = none) :
    goodKey (keyStep5 ps) := by
  intro k hk
  unfold keyStep5 at hk
  cases h5 : titleMatchStep ps with
  | none => rw [h5] at hk; exact goodKey_step4 ps hbc k hk
  | some g =>
    obtain ⟨g1, g2⟩ := g
    rw [h5] at hk
    simp only at hk
    split at hk
    · simp only [Option.some.injEq] at hk
      subst hk
      have htm : titleMatch ps.title.data = some (g1, g2) := by
        unfold titleMatchStep at h5
        split at h5
        · exact h5
        · simp at h5
      exact upperKey_str (titleMatch_upper htm)
    · exact goodKey_step4 ps hbc k hk

/-- C6 counterexample: the claim as stated fails — on a page whose
breadcrumb element's text is `hello` (and no other key source), the
extracted key is `hello` verbatim: it neither matches
`[A-Z][A-Z0-9]+-[0-9]+` nor is uppercase-normalized, because the
breadcrumb strategy copies `textContent.trim()` without validation. -/
theorem c6_counterexample :
    (extractIssueData ⟨"https://x.atlassian.net/foo", [], "https://x.atlassian.net",
       some "hello", [], [], ""⟩).key = some "hello" ∧
    upperKeyB ("hello".data) = false ∧ jsUpper "hello" ≠ "hello" := by decide

/-- C6 (amended): on every page state in which the breadcrumb element is
absent — so the key comes from the URL, the `selectedIssue` parameter,
the key-selector regex loop or the title fallback, each of which
validates against `[A-Z][A-Z0-9]+-\d+` (case-insensitively) and calls
`toUpperCase()` — a non-null extracted key matches the normalized
pattern `[A-Z][A-Z0-9]+-[0-9]+` and is fixed by uppercasing. -/
theorem c6_key_invariant_no_breadcrumb (ps : PageState) (hbc : ps.breadcrumb = none)
    (k : String) (hk : (extractIssueData ps).key = some k) :
    upperKeyB k.data = true ∧ jsUpper k = k :=
  goodKey_step5 ps hbc k (by rw [← extract_key_eq]; exact hk)

/-- Witness for the amended C6 at a lowercase `/browse/` URL. -/
theorem c6_witness :
    (extractIssueData ⟨"https://x.atlassian.net/browse/proj-12?x=1", [],
       "https://x.atlassian.net", none, [], [], ""⟩).key = some "PROJ-12" ∧
    (upperKeyB ("PROJ-12" : String).data = true ∧ jsUpper "PROJ-12" = "PROJ-12") :=
  ⟨by decide,
   c6_key_invariant_no_breadcrumb ⟨"https://x.atlassian.net/browse/proj-12?x=1", [],
       "https://x.atlassian.net", none, [], [], ""⟩ rfl "PROJ-12" (by decide)⟩

/-- C9 counterexample: the claim as stated fails — a breadcrumb element
containing only whitespace yields the non-null key `""`, for which the
final `if (data.key)` guard is falsy, so the url is NOT rewritten to
`<origin>/browse/<key>` but left as the page URL. -/
theorem c9_counterexample :
    (extractIssueData ⟨"https://x.atlassian.net/page", [], "https://x.atlassian.net",
       some " ", [], [], ""⟩).key = some "" ∧
    (extractIssueData ⟨"https://x.atlassian.net/page", [], "https://x.atlassian.net",
       some " ", [], [], ""⟩).url = "https://x.atlassian.net/page" ∧
    ("https://x.atlassian.net/page" : String)
      ≠ "https://x.atlassian.net" ++ "/browse/" ++ "" := by decide

/-- C9 (amended): whenever `extractIssueData` returns a truthy key
(non-null and non-empty), the returned url is the canonical
`<origin>/browse/<key>`; whenever the key is null or empty, the url is
the page's current URL unchanged. -/
theorem c9_url_rewrite (ps : PageState) :
    (∀ k : String, (extractIssueData ps).key = some k → k ≠ "" →
       (extractIssueData ps).url = ps.origin ++ "/browse/" ++ k) ∧
    (((extractIssueData ps).key = none ∨ (extractIssueData ps).key = some "") →
       (extractIssueData ps).url = ps.href) := by
  constructor
  · intro k hk hne
    have h5 : keyStep5 ps = some k := by rw [← extract_key_eq]; exact hk
    rw [extract_url_eq, h5]
    simp only
    rw [if_pos (by simpa using hne)]
  · intro h
    cases h with
    | inl h =>
      have h5 : keyStep5 ps = none := by rw [← extract_key_eq]; exact h
      rw [extract_url_eq, h5]
    | inr h =>
      have h5 : keyStep5 ps = some "" := by rw [← extract_key_eq]; exact h
      rw [extract_url_eq, h5]
      simp

/-- Witness for the amended C9: a canonicalized URL on a `/browse/`
page (where the page URL itself had a query string) and an unchanged
URL on a page with no key. -/
theorem c9_witness :
    (extractIssueData ⟨"https://x.atlassian.net/browse/proj-12?x=1", [],
       "https://x.atlassian.net", none, [], [], ""⟩).url
      = "https://x.atlassian.net" ++ "/browse/" ++ "PROJ-12" ∧
    (extractIssueData ⟨"https://x.atlassian.net/nothing", [],
       "https://x.atlassian.net", none, [], [], ""⟩).url
      = "https://x.atlassian.net/nothing" :=
  ⟨(c9_url_rewrite ⟨"https://x.atlassian.net/browse/proj-12?x=1", [],
       "https://x.atlassian.net", none, [], [], ""⟩).1 "PROJ-12" (by decide) (by decide),
   (c9_url_rewrite ⟨"https://x.atlassian.net/nothing", [],
       "https://x.atlassian.net", none, [], [], ""⟩).2 (Or.inl (by decide))⟩

/-- C5 counterexample: the claim as stated fails in two falsy corners —
an IssueReference with the non-null key `""` yields `null` (the JS
guard is `!key`, not a null check), and a non-null empty summary yields
the bare key rather than `<key> - <summary>` (the JS guard is
`summary ?`, not a null check). -/
theorem c5_counterexample :
    (IssueData.mk (some "") none "u").key = some "" ∧
    generateFormats ⟨some "", none, "u"⟩ = none ∧
    (generateFormats ⟨some "K", some "", "u"⟩).map IssueFormats.plainText = some "K" := by
  decide

/-- C5 (amended): `generateFormats` returns `null` when the key is
absent (and also when it is empty); for every non-null, non-empty key it
produces exactly the four strings — `plainText` is `<key> - <summary>`
when the summary is non-null and non-empty and the bare key otherwise,
`markdown` is a Markdown link labelled with the full title, whose target
is the url, `markdownShort` the same link labelled with the key only,
and `html` an anchor whose href is the url and whose text is the
HTML-escaped full title. -/
theorem c5_formats (s : Option String) (u : String) :
    generateFormats ⟨none, s, u⟩ = none ∧
    ∀ k : String, k ≠ "" → ∃ f : IssueFormats,
      generateFormats ⟨some k, s, u⟩ = some f ∧
      f.plainText = (match s with
                     | some t => if t == "" then k else k ++ " - " ++ t
                     | none => k) ∧
      f.markdown = "[" ++ f.plainText ++ "](" ++ u ++ ")" ∧
      f.markdownShort = "[" ++ k ++ "](" ++ u ++ ")" ∧
      f.html = "<a href=\"" ++ u ++ "\">" ++ escapeHtml f.plainText ++ "</a>" := by
  constructor
  · rfl
  · intro k hk
    have hke : (k == "") = false := by simpa using hk
    unfold generateFormats
    simp only [hke, Bool.false_eq_true, if_false]
    exact ⟨_, rfl, rfl, rfl, rfl, rfl⟩

/-- Witness for the amended C5 at the specification's own example, plus
the null-key case. -/
theorem c5_witness :
    generateFormats ⟨none, some "x", "u"⟩ = none ∧
    ∃ f : IssueFormats,
      generateFormats ⟨some "PROJ-123", some "Fix bug",
        "https://x.atlassian.net/browse/PROJ-123"⟩ = some f ∧
      f.plainText = "PROJ-123 - Fix bug" ∧
      f.markdown = "[PROJ-123 - Fix bug](https://x.atlassian.net/browse/PROJ-123)" ∧
      f.markdownShort = "[PROJ-123](https://x.atlassian.net/browse/PROJ-123)" ∧
      f.html = "<a href=\"https://x.atlassian.net/browse/PROJ-123\">PROJ-123 - Fix bug</a>" := by
  refine ⟨(c5_formats (some "x") "u").1, ?_⟩
  obtain ⟨f, hf, h1, h2, h3, h4⟩ := (c5_formats (some "Fix bug")
    "https://x.atlassian.net/browse/PROJ-123").2 "PROJ-123" (by decide)
  have h1c : f.plainText = "PROJ-123 - Fix bug" := by rw [h1]; decide
  refine ⟨f, hf, h1c, ?_, ?_, ?_⟩
  · rw [h2, h1c]; decide
  · rw [h3]; decide
  · rw [h4, h1c]; decide

/-- C10: in every non-null result of `generateFormats`, only the
anchor's text is HTML-escaped: the html string's href attribute and the
two Markdown link targets carry the IssueReference's url verbatim,
whatever characters (quotes, angle brackets, ampersands) it contains. -/
theorem c10_url_verbatim (d : IssueData) (f : IssueFormats)
    (h : generateFormats d = some f) :
    ∃ k : String, d.key = some k ∧
      f.html = "<a href=\"" ++ d.url ++ "\">" ++ escapeHtml f.plainText ++ "</a>" ∧
      f.markdown = "[" ++ f.plainText ++ "](" ++ d.url ++ ")" ∧
      f.markdownShort = "[" ++ k ++ "](" ++ d.url ++ ")" := by
  obtain ⟨ko, so, uo⟩ := d
  cases ko with
  | none => simp [generateFormats] at h
  | some k =>
    refine ⟨k, rfl, ?_⟩
    unfold generateFormats at h
    simp only at h
    by_cases hk : (k == "") = true
    · rw [if_pos hk] at h
      simp at h
    · rw [if_neg hk] at h
      simp only [Option.some.injEq] at h
      subst h
      exact ⟨rfl, rfl, rfl⟩

/-- Witness for C10 at a url containing a double quote, angle brackets
and an ampersand: all appear unescaped in the href and the Markdown
targets (while the same characters in a title would be escaped). -/
theorem c10_witness :
    generateFormats ⟨some "K1", none, "https://e/\"<&x>"⟩ =
      some ⟨"K1", "[K1](https://e/\"<&x>)", "[K1](https://e/\"<&x>)",
        "<a href=\"https://e/\"<&x>\">K1</a>"⟩ ∧
    ∃ k : String, (IssueData.mk (some "K1") none "https://e/\"<&x>").key = some k ∧
      (IssueFormats.mk "K1" "[K1](https://e/\"<&x>)" "[K1](https://e/\"<&x>)"
          "<a href=\"https://e/\"<&x>\">K1</a>").html
        = "<a href=\"" ++ (IssueData.mk (some "K1") none "https://e/\"<&x>").url ++ "\">"
          ++ escapeHtml (IssueFormats.mk "K1" "[K1](https://e/\"<&x>)"
              "[K1](https://e/\"<&x>)" "<a href=\"https://e/\"<&x>\">K1</a>").plainText
          ++ "</a>" ∧
      (IssueFormats.mk "K1" "[K1](https://e/\"<&x>)" "[K1](https://e/\"<&x>)"
          "<a href=\"https://e/\"<&x>\">K1</a>").markdown
        = "[" ++ (IssueFormats.mk "K1" "[K1](https://e/\"<&x>)" "[K1](https://e/\"<&x>)"
              "<a href=\"https://e/\"<&x>\">K1</a>").plainText ++ "]("
          ++ (IssueData.mk (some "K1") none "https://e/\"<&x>").url ++ ")" ∧
      (IssueFormats.mk "K1" "[K1](https://e/\"<&x>)" "[K1](https://e/\"<&x>)"
          "<a href=\"https://e/\"<&x>\">K1</a>").markdownShort
        = "[" ++ k ++ "](" ++ (IssueData.mk (some "K1") none "https://e/\"<&x>").url ++ ")" :=
  ⟨by decide, c10_url_verbatim _ _ (by decide)⟩

/-- C8: when the rich HTML-plus-text clipboard write fails (for
example, `ClipboardItem` unsupported), `copyHtmlToClipboard` falls back
to a plain-text write and does not propagate the original error — its
outcome is that of the fallback write alone.  The string written by the
fallback is the HTML markup string, not the `plainText` format. -/
theorem c8_clipboard_fallback (env : ClipboardEnv) (html plain e : String)
    (herr : env.richResult = Except.error e) :
    (copyHtmlToClipboard env html plain).2
      = [ClipboardAction.richWrite html plain, ClipboardAction.textWrite html] ∧
    (copyHtmlToClipboard env html plain).1 = env.textResult ∧
    (env.textResult = Except.ok () →
      (copyHtmlToClipboard env html plain).1 ≠ Except.error e) := by
  unfold copyHtmlToClipboard
  rw [herr]
  refine ⟨rfl, rfl, ?_⟩
  intro hok
  rw [hok]
  simp

/-- Witness for C8 with a rejecting rich write and a succeeding
plain-text write. -/
theorem c8_witness :
    (copyHtmlToClipboard ⟨Except.error "unsupported", Except.ok ()⟩ "<a>x</a>" "x").2
      = [ClipboardAction.richWrite "<a>x</a>" "x", ClipboardAction.textWrite "<a>x</a>"] ∧
    (copyHtmlToClipboard ⟨Except.error "unsupported", Except.ok ()⟩ "<a>x</a>" "x").1
      = (ClipboardEnv.mk (Except.error "unsupported") (Except.ok ())).textResult ∧
    ((ClipboardEnv.mk (Except.error "unsupported") (Except.ok ())).textResult
        = Except.ok () →
      (copyHtmlToClipboard ⟨Except.error "unsupported", Except.ok ()⟩ "<a>x</a>" "x").1
        ≠ Except.error "unsupported") :=
  c8_clipboard_fallback ⟨Except.error "unsupported", Except.ok ()⟩ "<a>x</a>" "x"
    "unsupported" rfl
